import Mathlib

/-!
Verification of the itscope API client (batching, retrying fetch pipeline,
fan-out aggregation, accessory filtering).

The Go sources are embedded shallowly:
pure helpers become Lean functions; the HTTP layer is abstracted by an
oracle `env : Nat -> Attempt _` giving the outcome of each network attempt
(limiter wait failure, transport failure, or a response with a status code
and a decode outcome for its body).  The pair returned by the effectful
models carries the Go return values (as an `Except`, since every return
site yields either a value or an error, never both) together with the
number of network requests issued (calls of `client.Do`).
-/

set_option autoImplicit false

namespace Itscope

/-! ## Data model

The struct declarations themselves are not among the sources; their fields
are the ones the source functions access.  Modelled from the spec: a
product record is an abstract record with a unique identifier (`Puid`), a
type identifier, accessory references, and optional image references; the
containers decode from `\x7b"product": [...]\x7d` and
`\x7b"producttype": [...]\x7d`; `Language` is the configured response
language sent as a header value. -/

structure Accessory where
  ReferencedProductID : String := ""
deriving DecidableEq

structure Product where
  Puid : String := ""
  ProductTypeID : String := ""
  Accessories : List Accessory := []
deriving DecidableEq

structure ProductsContainer where
  Product : List Product := []
deriving DecidableEq

structure ProductTypeGroup where
  ID : String := ""
deriving DecidableEq

structure ProductType where
  ID : String := ""
  ProductTypeGroup : ProductTypeGroup := {}
deriving DecidableEq

structure ProductTypesContainer where
  ProductTypes : List ProductType := []
deriving DecidableEq

abbrev Language := String

/-- Go errors, as the source builds them: `fmt.Errorf` messages, wrapping
with a context prefix (`fmt.Errorf("...: %w", err)`), and the
`UnexpectedStatusCodeError` struct of error.go carrying `Message`
(the HTTP status line) and `StatusCode`. -/
inductive GoError where
  | errorf (msg : String)
  | wrapped (msg : String) (inner : GoError)
  | unexpectedStatusCode (message : String) (statusCode : Nat)
deriving DecidableEq

/-- The client struct.  The `client *http.Client` and `limiter` fields are
replaced by the attempt oracle passed to each operation; the remaining
fields are as in the source. -/
structure ITScopeCommunicator where
  username : String
  password : String
  userAgent : String
  language : Language
  CompanyName : String
deriving DecidableEq

/-- `New` from the source (the http client and the rate limiter themselves
are outside the model). -/
def New (companyName : String) (userName : String) (password : String)
    (language : Language) : ITScopeCommunicator :=
  { CompanyName := companyName
    userAgent := companyName ++ "-ITS_ApiModule-0.1"
    username := userName
    password := password
    language := language }

/-! ## Batcher: createQueryStrings

Source loop: `pages := len/length; if len%length > 0 then pages+1`;
`for i := pages; i > 0; i--` takes the slice `productIDs[start:end]`
(with `start := (i-1)*length`, `end := i*length`, and the full tail
`productIDs[start:]` when `i == pages`) and appends
`"id=" + strings.Join(slice, ";id=")`. -/

def goPages (n length : Nat) : Nat :=
  let pages := n / length
  if n % length > 0 then pages + 1 else pages

/-- The slice taken at loop counter `i` (Go slice `l[start:stop]` is
`(l.drop start).take (stop - start)`). -/
def querySlice (productIDs : List String) (length pages i : Nat) : List String :=
  let start := (i - 1) * length
  let stop := i * length
  if i = pages then productIDs.drop start
  else (productIDs.drop start).take (stop - start)

/-- The `for i := pages; i > 0; i--` loop, emitting the slice at each
counter value, highest first. -/
def chunksLoop (productIDs : List String) (length pages : Nat) : Nat → List (List String)
  | 0 => []
  | i + 1 => querySlice productIDs length pages (i + 1) :: chunksLoop productIDs length pages i

/-- The sequence of identifier groups `createQueryStrings` builds its
query strings from, in emission order. -/
def createQueryChunks (productIDs : List String) (length : Nat) : List (List String) :=
  chunksLoop productIDs length (goPages productIDs.length length) (goPages productIDs.length length)

def createQueryStrings (productIDs : List String) (length : Nat) : List String :=
  (createQueryChunks productIDs length).map (fun slice => "id=" ++ String.intercalate ";id=" slice)

/-! ## Query executor: GetProductsFromQuery and GetAllProductTypes

The network is abstracted by an oracle `env : Nat → Attempt α` giving, for
the i-th loop iteration, the outcome of `limiter.Wait` and `client.Do`:
either the limiter wait fails (no request issued), or the request fails at
transport level (`client.Do` returns an error and a nil response), or a
response arrives with a status code, a status line, and a body whose JSON
decoding yields `α` or an error.  The counter threaded through the loop
counts calls of `client.Do`, i.e. network requests issued. -/

inductive Attempt (α : Type) where
  | limiterTimeout (e : GoError)
  | transportError (e : GoError)
  | response (statusCode : Nat) (status : String) (body : Except GoError α)

/-- The non-nil part of the `response` variable of the Go retry loop. -/
structure HttpResponse (α : Type) where
  statusCode : Nat
  status : String
  body : Except GoError α

/-- State when the Go retry loop stops: either it returned inside the loop
because `limiter.Wait` failed, or it fell through (by `break` or by
exhausting `retries`) with the current values of the `err` and `response`
variables. -/
inductive LoopResult (α : Type) where
  | limiterAbort (e : GoError)
  | finished (err : Option GoError) (resp : Option (HttpResponse α))

/-- The retry loop shared by `GetProductsFromQuery` and
`GetAllProductTypes`:

    retries := 3
    for retries > 0 {
      if err = limiter.Wait(ctx); err != nil { return limiter timeout }
      response, err = client.Do(request)
      if err != nil || (status != 200 && status != 404) { retries -= 1 }
      else { break }
    }

`idx` numbers the attempts (indexing `env`), `count` counts `client.Do`
calls. -/
def doLoop {α : Type} (env : Nat → Attempt α) :
    Nat → Nat → Option GoError → Option (HttpResponse α) → Nat → LoopResult α × Nat
  | 0, _, err, resp, count => (.finished err resp, count)
  | retries + 1, idx, _, _, count =>
    match env idx with
    | .limiterTimeout e => (.limiterAbort (.wrapped "limiter timeout" e), count)
    | .transportError e => doLoop env retries (idx + 1) (some e) none (count + 1)
    | .response sc st body =>
      if sc ≠ 200 ∧ sc ≠ 404 then
        doLoop env retries (idx + 1) none (some ⟨sc, st, body⟩) (count + 1)
      else (.finished none (some ⟨sc, st, body⟩), count + 1)

/-- Credential check of `authenticateRequest` (the header writes have no
observable effect in the model). -/
def authenticateRequest (its : ITScopeCommunicator) : Except GoError Unit :=
  if its.username = "" ∨ its.password = "" then
    .error (.errorf "no username or password set")
  else .ok ()

/-- `GetProductsFromQuery` of the retrying client: credential check, retry
loop, then 404 → empty container, other non-200 → `UnexpectedStatusCode`
(carrying the status line and code of the response in hand), 200 → decode.
The `query` string only shapes the request URL, which the oracle
abstracts.  Second component: number of network requests issued. -/
def GetProductsFromQuery (its : ITScopeCommunicator) (env : Nat → Attempt ProductsContainer)
    (query : String) : Except GoError ProductsContainer × Nat :=
  match authenticateRequest its with
  | .error e => (.error (.wrapped "GetProductsFromQuery2" e), 0)
  | .ok _ =>
    match doLoop env 3 0 none none 0 with
    | (.limiterAbort e, c) => (.error e, c)
    | (.finished (some e) _, c) => (.error (.wrapped "GetProductsFromQuery" e), c)
    | (.finished none none, c) => (.error (.errorf "nil response dereference"), c)
    | (.finished none (some r), c) =>
      if r.statusCode = 404 then (.ok {}, c)
      else if r.statusCode ≠ 200 then
        (.error (.unexpectedStatusCode r.status r.statusCode), c)
      else
        match r.body with
        | .error e => (.error e, c)
        | .ok products => (.ok products, c)

/-- `GetProductData`: single-SKU lookup through `GetProductsFromQuery`
with query `distpid=<sku>`; a container with no products yields
`(nil, nil)`, modelled as `.ok none`. -/
def GetProductData (its : ITScopeCommunicator) (env : Nat → Attempt ProductsContainer)
    (productSKU : String) : Except GoError (Option Product) × Nat :=
  match GetProductsFromQuery its env ("distpid=" ++ productSKU) with
  | (.error e, c) => (.error (.wrapped "could not retrieve product data" e), c)
  | (.ok productContainer, c) =>
    match productContainer.Product with
    | p :: _ => (.ok (some p), c)
    | [] => (.ok none, c)

/-- `GetAllProductTypes`: same pipeline against the product-type endpoint,
decoding a `ProductTypesContainer`; 404 yields the empty catalog. -/
def GetAllProductTypes (its : ITScopeCommunicator)
    (env : Nat → Attempt ProductTypesContainer) : Except GoError (List ProductType) × Nat :=
  match authenticateRequest its with
  | .error e => (.error (.wrapped "could not retrieve product types" e), 0)
  | .ok _ =>
    match doLoop env 3 0 none none 0 with
    | (.limiterAbort e, c) => (.error e, c)
    | (.finished (some e) _, c) => (.error (.wrapped "could not retrieve product types" e), c)
    | (.finished none none, c) => (.error (.errorf "nil response dereference"), c)
    | (.finished none (some r), c) =>
      if r.statusCode = 404 then (.ok [], c)
      else if r.statusCode ≠ 200 then
        (.error (.unexpectedStatusCode r.status r.statusCode), c)
      else
        match r.body with
        | .error e => (.error (.wrapped "could not retrieve product types" e), c)
        | .ok productTypes => (.ok productTypes.ProductTypes, c)

/-! ## Fan-out aggregator: GetProductAccessoriesFromList

Sequential variant of the retrying client: groups are processed in order;
the oracle `env g` supplies the attempts of group `g`. -/

/-- The `for _, query := range queryStrings` loop: run each group through
`GetProductsFromQuery`, stop on the first error (returning `nil, err`),
otherwise append the returned products. -/
def accListLoop (its : ITScopeCommunicator) (env : Nat → Nat → Attempt ProductsContainer) :
    List String → Nat → List Product → Nat → Except GoError (List Product) × Nat
  | [], _, acc, count => (.ok acc, count)
  | query :: rest, g, acc, count =>
    match GetProductsFromQuery its (env g) query with
    | (.error e, c) => (.error e, count + c)
    | (.ok product, c) => accListLoop its env rest (g + 1) (acc ++ product.Product) (count + c)

/-- `GetProductAccessoriesFromList`: empty input short-circuits to
`(nil, nil)` before any batching or network work; otherwise the batcher
output (batch length 50) is driven through the executor group by group. -/
def GetProductAccessoriesFromList (its : ITScopeCommunicator)
    (env : Nat → Nat → Attempt ProductsContainer) (products : List String) :
    Except GoError (List Product) × Nat :=
  if products.length = 0 then (.ok [], 0)
  else accListLoop its env (createQueryStrings products 50) 0 [] 0

/-! ## Product assembler: filters and accessory resolution -/

def FilterProductTypesByGroupId (groupId : String) (productTypes : List ProductType) :
    List ProductType :=
  productTypes.filter (fun productType => productType.ProductTypeGroup.ID = groupId)

def FilterProductTypesById (id : String) (productTypes : List ProductType) :
    List ProductType :=
  productTypes.filter (fun productType => productType.ID = id)

/-- One `filteredProducts[product.Puid] = product` store on the Go map,
modelled as an association list with insert-or-replace semantics. -/
def mapStore (m : List (String × Product)) (k : String) (v : Product) :
    List (String × Product) :=
  if m.any (fun p => p.1 = k) then
    m.map (fun p => if p.1 = k then (k, v) else p)
  else m ++ [(k, v)]

/-- `FilterProductsByTypeList`: nested loops (types outer, products inner)
storing matching products in a map keyed by `Puid`, then read the map
values out.  Go map iteration order is unspecified; the model fixes
insertion order, which is sound for the order-insensitive properties
proved here (key set, at-most-once, membership). -/
def FilterProductsByTypeList (products : List Product) (typeList : List ProductType) :
    List Product :=
  (typeList.foldl (fun m productType =>
    products.foldl (fun m product =>
      if product.ProductTypeID = productType.ID ∧ product.ProductTypeID ≠ "" ∧
          productType.ProductTypeGroup.ID ≠ "" then
        mapStore m product.Puid product
      else m) m) []).map Prod.snd

/-- `GetProductAccessories`: map the accessory references of a product to
an identifier list and delegate to the aggregator. -/
def GetProductAccessories (its : ITScopeCommunicator)
    (env : Nat → Nat → Attempt ProductsContainer) (product : Product) :
    Except GoError (List Product) × Nat :=
  let accessoryIds := product.Accessories.map (fun v => v.ReferencedProductID)
  match GetProductAccessoriesFromList its env accessoryIds with
  | (.error e, c) => (.error (.wrapped "GetProductAccessories" e), c)
  | (.ok accessories, c) => (.ok accessories, c)

/-- `GetServiceTypeAccessoriesOfProduct`: fetch the type catalog, fetch
the accessories, keep the types of group "SSP", and filter the accessories
by that type list.  `envT` supplies the attempts of the catalog fetch,
`envA` those of the accessory fan-out. -/
def GetServiceTypeAccessoriesOfProduct (its : ITScopeCommunicator)
    (envT : Nat → Attempt ProductTypesContainer)
    (envA : Nat → Nat → Attempt ProductsContainer) (product : Product) :
    Except GoError (List Product) × Nat :=
  match GetAllProductTypes its envT with
  | (.error e, c) => (.error (.wrapped "GetServiceTypeAccessoriesOfProduct" e), c)
  | (.ok productTypes, c1) =>
    match GetProductAccessories its envA product with
    | (.error e, c2) => (.error (.wrapped "GetServiceTypeAccessoriesOfProduct" e), c1 + c2)
    | (.ok accessories, c2) =>
      (.ok (FilterProductsByTypeList accessories
        (FilterProductTypesByGroupId "SSP" productTypes)), c1 + c2)

/-- Invariant of the Go map built by `FilterProductsByTypeList`: keys are
pairwise distinct, every entry is keyed by the `Puid` of its value, and
every stored value is one of the candidate products and matches some type
of the type list (non-empty type id, non-empty group id). -/
def StoreInv (products : List Product) (typeList : List ProductType)
    (m : List (String × Product)) : Prop :=
  m.Pairwise (fun a b => a.1 ≠ b.1) ∧
  ∀ q ∈ m, q.1 = q.2.Puid ∧ q.2 ∈ products ∧
    ∃ t ∈ typeList, q.2.ProductTypeID = t.ID ∧ q.2.ProductTypeID ≠ "" ∧
      t.ProductTypeGroup.ID ≠ ""

/-! ## Attempt classification (for stating properties of the retry loop) -/

/-- A transient failure in the sense of the retry loop: transport error,
or a response whose status is neither 200 nor 404. -/
def Attempt.isTransientFailure {α : Type} : Attempt α → Bool
  | .transportError _ => true
  | .response sc _ _ => sc != 200 && sc != 404
  | .limiterTimeout _ => false

/-- A response carrying a status other than 200 and 404. -/
def Attempt.isBadStatusResponse {α : Type} : Attempt α → Bool
  | .response sc _ _ => sc != 200 && sc != 404
  | _ => false

/-- The limiter wait failed on this attempt (context cancelled before a
token was granted), so no request went out. -/
def Attempt.isLimiterWaitFailure {α : Type} : Attempt α → Bool
  | .limiterTimeout _ => true
  | _ => false

/-! ### Batcher lemmas -/

theorem goPages_eq_ceil (n L : Nat) (hL : 0 < L) : goPages n L = (n + L - 1) / L := by
  have hdm := Nat.div_add_mod n L
  have hlt : n % L < L := Nat.mod_lt n hL
  have hrw : n + L - 1 = L * (n / L) + (n % L + L - 1) := by omega
  simp only [goPages]
  rw [hrw, Nat.mul_add_div hL]
  by_cases h : n % L > 0
  · simp only [if_pos h]
    have h2 : n % L + L - 1 = (n % L - 1) + L := by omega
    rw [h2, Nat.add_div_right _ hL]
    have h3 : (n % L - 1) / L = 0 := Nat.div_eq_of_lt (by omega)
    rw [h3]
  · simp only [if_neg h]
    have h0 : n % L = 0 := by omega
    have h3 : (n % L + L - 1) / L = 0 := Nat.div_eq_of_lt (by omega)
    rw [h3]
    omega

theorem goPages_mul_ge (n L : Nat) (hL : 0 < L) : n ≤ goPages n L * L := by
  have hdm := Nat.div_add_mod n L
  have hlt : n % L < L := Nat.mod_lt n hL
  simp only [goPages]
  by_cases h : n % L > 0
  · simp only [if_pos h]
    have h1 : (n / L + 1) * L = L * (n / L) + L := by ring
    omega
  · simp only [if_neg h]
    have h1 : (n / L) * L = L * (n / L) := by ring
    omega

theorem chunksLoop_length (l : List String) (L p : Nat) :
    ∀ i, (chunksLoop l L p i).length = i := by
  intro i
  induction i with
  | zero => rfl
  | succ i ih => simp [chunksLoop, ih]

theorem chunksLoop_reverse_flatten (l : List String) (L : Nat) (hL : 0 < L) :
    ∀ i, i ≤ goPages l.length L →
      (chunksLoop l L (goPages l.length L) i).reverse.flatten = l.take (i * L) := by
  intro i
  induction i with
  | zero => intro _; simp [chunksLoop]
  | succ i ih =>
    intro hi
    have hip : i ≤ goPages l.length L := Nat.le_of_succ_le hi
    simp only [chunksLoop, List.reverse_cons, List.flatten_append, List.flatten_cons,
      List.flatten_nil, List.append_nil]
    rw [ih hip]
    by_cases h : i + 1 = goPages l.length L
    · simp only [querySlice, if_pos h, Nat.add_sub_cancel]
      rw [List.take_append_drop]
      have hge : l.length ≤ (i + 1) * L := h ▸ goPages_mul_ge l.length L hL
      exact (List.take_of_length_le hge).symm
    · simp only [querySlice, if_neg h, Nat.add_sub_cancel]
      have h1 : (i + 1) * L - i * L = L := by
        have : (i + 1) * L = i * L + L := by ring
        omega
      have h2 : (i + 1) * L = i * L + L := by ring
      rw [h1, h2, List.take_add]

theorem chunksLoop_length_le (l : List String) (L : Nat) (hL : 0 < L) :
    ∀ i, i ≤ goPages l.length L →
      ∀ c ∈ chunksLoop l L (goPages l.length L) i, c.length ≤ L := by
  intro i
  induction i with
  | zero => intro _ c hc; simp [chunksLoop] at hc
  | succ i ih =>
    intro hi c hc
    simp only [chunksLoop, List.mem_cons] at hc
    rcases hc with rfl | hc
    · by_cases h : i + 1 = goPages l.length L
      · simp only [querySlice, if_pos h, Nat.add_sub_cancel, List.length_drop]
        have hge : l.length ≤ (i + 1) * L := h ▸ goPages_mul_ge l.length L hL
        have h2 : (i + 1) * L = i * L + L := by ring
        omega
      · simp only [querySlice, if_neg h, Nat.add_sub_cancel, List.length_take]
        have h2 : (i + 1) * L = i * L + L := by ring
        omega
    · exact ih (Nat.le_of_succ_le hi) c hc

theorem chunksLoop_getElem (l : List String) (L p : Nat) :
    ∀ i k, k < i → (chunksLoop l L p i)[k]? = some (querySlice l L p (i - k)) := by
  intro i
  induction i with
  | zero => intro k hk; omega
  | succ i ih =>
    intro k hk
    cases k with
    | zero => simp [chunksLoop]
    | succ k =>
      simp only [chunksLoop, List.getElem?_cons_succ]
      have h3 : i + 1 - (k + 1) = i - k := by omega
      rw [h3, ih k (by omega)]

theorem querySlice_eq (l : List String) (L : Nat) (hL : 0 < L) (i : Nat)
    (h1 : 1 ≤ i) (h2 : i ≤ goPages l.length L) :
    querySlice l L (goPages l.length L) i = (l.drop ((i - 1) * L)).take L := by
  obtain ⟨j, rfl⟩ : ∃ j, i = j + 1 := ⟨i - 1, by omega⟩
  by_cases h : j + 1 = goPages l.length L
  · simp only [querySlice, if_pos h, Nat.add_sub_cancel]
    have hge : l.length ≤ (j + 1) * L := h ▸ goPages_mul_ge l.length L hL
    have h2 : (j + 1) * L = j * L + L := by ring
    have hlen : (l.drop (j * L)).length ≤ L := by
      rw [List.length_drop]; omega
    exact (List.take_of_length_le hlen).symm
  · simp only [querySlice, if_neg h, Nat.add_sub_cancel]
    have h2 : (j + 1) * L = j * L + L := by ring
    have h3 : (j + 1) * L - j * L = L := by omega
    rw [h3]

/-- C1: for every identifier list of length n and positive batch length L,
`createQueryStrings` produces exactly ceil(n/L) query groups, the groups
(read back to front) concatenate to the input, so every identifier appears
in exactly one group, no group holds more than L identifiers, and the
empty input yields the empty sequence. -/
theorem c1_batcher_partition (l : List String) (L : Nat) (hL : 0 < L) :
    (createQueryStrings l L).length = (l.length + L - 1) / L ∧
    (createQueryChunks l L).reverse.flatten = l ∧
    (∀ c ∈ createQueryChunks l L, c.length ≤ L) ∧
    createQueryStrings [] L = [] := by
  refine ⟨?_, ?_, ?_, ?_⟩
  · rw [createQueryStrings, List.length_map, createQueryChunks, chunksLoop_length,
      goPages_eq_ceil l.length L hL]
  · rw [createQueryChunks, chunksLoop_reverse_flatten l L hL _ le_rfl]
    exact List.take_of_length_le (goPages_mul_ge l.length L hL)
  · exact chunksLoop_length_le l L hL _ le_rfl
  · simp [createQueryStrings, createQueryChunks, goPages, chunksLoop]

theorem c1_batcher_partition_witness :
    (createQueryStrings ["a", "b", "c"] 2).length = (3 + 2 - 1) / 2 ∧
    (createQueryChunks ["a", "b", "c"] 2).reverse.flatten = ["a", "b", "c"] ∧
    (∀ c ∈ createQueryChunks ["a", "b", "c"] 2, c.length ≤ 2) ∧
    createQueryStrings [] 2 = [] :=
  c1_batcher_partition ["a", "b", "c"] 2 (by decide)

/-- C6: when n is not a multiple of L, the first group emitted is the tail
chunk of the input (its last n mod L identifiers), and the group at
emission position k is the chunk starting at index (pages - 1 - k) * L, so
the start indices strictly descend (tail chunk first, head chunk last). -/
theorem c6_batcher_tail_first (l : List String) (L : Nat) (hL : 0 < L)
    (hr : l.length % L ≠ 0) :
    (createQueryChunks l L).head? = some (l.drop (l.length - l.length % L)) ∧
    ∀ k, k < goPages l.length L →
      (createQueryChunks l L)[k]? =
        some ((l.drop ((goPages l.length L - 1 - k) * L)).take L) := by
  have hdm := Nat.div_add_mod l.length L
  have hp : goPages l.length L = l.length / L + 1 := by
    simp [goPages, Nat.pos_of_ne_zero hr]
  constructor
  · rw [createQueryChunks, hp]
    simp only [chunksLoop, List.head?_cons]
    simp only [querySlice, if_pos rfl, Nat.add_sub_cancel, if_true]
    have key : l.length / L * L + l.length % L = l.length := Nat.div_add_mod' l.length L
    have hidx : l.length / L * L = l.length - l.length % L := by omega
    rw [hidx]
  · intro k hk
    have hidx : goPages l.length L - k - 1 = goPages l.length L - 1 - k := by omega
    rw [createQueryChunks, chunksLoop_getElem l L _ _ k hk,
      querySlice_eq l L hL _ (by omega) (by omega), hidx]

theorem c6_batcher_tail_first_witness :
    (createQueryChunks ["a", "b", "c"] 2).head? =
      some ((["a", "b", "c"] : List String).drop
        ((["a", "b", "c"] : List String).length - (["a", "b", "c"] : List String).length % 2)) ∧
    ∀ k, k < goPages (["a", "b", "c"] : List String).length 2 →
      (createQueryChunks ["a", "b", "c"] 2)[k]? =
        some (((["a", "b", "c"] : List String).drop
          ((goPages (["a", "b", "c"] : List String).length 2 - 1 - k) * 2)).take 2) :=
  c6_batcher_tail_first ["a", "b", "c"] 2 (by decide) (by decide)

/-! ### Retry loop lemmas -/

theorem doLoop_count_mono {α : Type} (env : Nat → Attempt α) :
    ∀ retries idx err resp count, count ≤ (doLoop env retries idx err resp count).2 := by
  intro retries
  induction retries with
  | zero => intro idx err resp count; simp [doLoop]
  | succ r ih =>
    intro idx err resp count
    cases henv : env idx with
    | limiterTimeout e => simp [doLoop, henv]
    | transportError e =>
      simp only [doLoop, henv]
      have := ih (idx + 1) (some e) none (count + 1)
      omega
    | response sc st body =>
      simp only [doLoop, henv]
      by_cases hc : sc ≠ 200 ∧ sc ≠ 404
      · rw [if_pos hc]
        have := ih (idx + 1) none (some ⟨sc, st, body⟩) (count + 1)
        omega
      · rw [if_neg hc]
        omega

theorem doLoop_count_le {α : Type} (env : Nat → Attempt α) :
    ∀ retries idx err resp count,
      (doLoop env retries idx err resp count).2 ≤ count + retries := by
  intro retries
  induction retries with
  | zero => intro idx err resp count; simp [doLoop]
  | succ r ih =>
    intro idx err resp count
    cases henv : env idx with
    | limiterTimeout e => simp [doLoop, henv]
    | transportError e =>
      simp only [doLoop, henv]
      have := ih (idx + 1) (some e) none (count + 1)
      omega
    | response sc st body =>
      simp only [doLoop, henv]
      by_cases hc : sc ≠ 200 ∧ sc ≠ 404
      · rw [if_pos hc]
        have := ih (idx + 1) none (some ⟨sc, st, body⟩) (count + 1)
        omega
      · rw [if_neg hc]
        omega

theorem doLoop_count_pos {α : Type} (env : Nat → Attempt α) (r idx : Nat)
    (err : Option GoError) (resp : Option (HttpResponse α)) (count : Nat)
    (h : (env idx).isLimiterWaitFailure = false) :
    count + 1 ≤ (doLoop env (r + 1) idx err resp count).2 := by
  cases henv : env idx with
  | limiterTimeout e => rw [henv] at h; simp [Attempt.isLimiterWaitFailure] at h
  | transportError e =>
    simp only [doLoop, henv]
    have := doLoop_count_mono env r (idx + 1) (some e) none (count + 1)
    omega
  | response sc st body =>
    simp only [doLoop, henv]
    by_cases hc : sc ≠ 200 ∧ sc ≠ 404
    · rw [if_pos hc]
      have := doLoop_count_mono env r (idx + 1) none (some ⟨sc, st, body⟩) (count + 1)
      omega
    · rw [if_neg hc]

/-- If the first `k` attempts fail transiently and attempt `k` is an HTTP
200 response, the loop breaks there with that response after `k + 1`
requests. -/
theorem doLoop_success {α : Type} (env : Nat → Attempt α) :
    ∀ k retries idx (err : Option GoError) (resp : Option (HttpResponse α)) count,
      k < retries →
      (∀ j, j < k → (env (idx + j)).isTransientFailure = true) →
      ∀ st (body : Except GoError α), env (idx + k) = .response 200 st body →
      doLoop env retries idx err resp count =
        (.finished none (some ⟨200, st, body⟩), count + k + 1) := by
  intro k
  induction k with
  | zero =>
    intro retries idx err resp count hk htrans st body henv
    obtain ⟨r, rfl⟩ : ∃ r, retries = r + 1 := ⟨retries - 1, by omega⟩
    rw [Nat.add_zero] at henv
    simp only [doLoop, henv]
    rw [if_neg (by simp)]
  | succ k ih =>
    intro retries idx err resp count hk htrans st body henv
    obtain ⟨r, rfl⟩ : ∃ r, retries = r + 1 := ⟨retries - 1, by omega⟩
    have h0 := htrans 0 (by omega)
    rw [Nat.add_zero] at h0
    have harg : ∀ j, j < k → (env (idx + 1 + j)).isTransientFailure = true := by
      intro j hj
      have := htrans (j + 1) (by omega)
      rwa [(by omega : idx + (j + 1) = idx + 1 + j)] at this
    have henv2 : env (idx + 1 + k) = .response 200 st body := by
      rwa [(by omega : idx + (k + 1) = idx + 1 + k)] at henv
    have hc : count + (k + 1) + 1 = count + 1 + k + 1 := by omega
    cases h : env idx with
    | limiterTimeout e => rw [h] at h0; simp [Attempt.isTransientFailure] at h0
    | transportError e =>
      simp only [doLoop, h]
      rw [hc, ih r (idx + 1) (some e) none (count + 1) (by omega) harg st body henv2]
    | response sc0 st0 body0 =>
      rw [h] at h0
      simp only [Attempt.isTransientFailure, Bool.and_eq_true, bne_iff_ne, ne_eq] at h0
      simp only [doLoop, h]
      rw [if_pos ⟨h0.1, h0.2⟩, hc,
        ih r (idx + 1) none (some ⟨sc0, st0, body0⟩) (count + 1) (by omega) harg st body henv2]

/-- If every attempt within the budget is a response with a status other
than 200 and 404, the loop exhausts its retries holding the response of
the final attempt and a nil error. -/
theorem doLoop_exhaust_badstatus {α : Type} (env : Nat → Attempt α) :
    ∀ retries idx (err : Option GoError) (resp : Option (HttpResponse α)) count,
      (∀ j, j < retries → (env (idx + j)).isBadStatusResponse = true) →
      ∀ sc st (body : Except GoError α), 0 < retries →
      env (idx + retries - 1) = .response sc st body →
      doLoop env retries idx err resp count =
        (.finished none (some ⟨sc, st, body⟩), count + retries) := by
  intro retries
  induction retries with
  | zero => intro idx err resp count h sc st body h0 hlast; omega
  | succ r ih =>
    intro idx err resp count h sc st body hr hlast
    have h0 := h 0 (by omega)
    rw [Nat.add_zero] at h0
    cases henv : env idx with
    | limiterTimeout e => rw [henv] at h0; simp [Attempt.isBadStatusResponse] at h0
    | transportError e => rw [henv] at h0; simp [Attempt.isBadStatusResponse] at h0
    | response sc0 st0 body0 =>
      rw [henv] at h0
      simp only [Attempt.isBadStatusResponse, Bool.and_eq_true, bne_iff_ne, ne_eq] at h0
      simp only [doLoop, henv]
      rw [if_pos ⟨h0.1, h0.2⟩]
      cases r with
      | zero =>
        simp only [doLoop]
        rw [(by omega : idx + 1 - 1 = idx)] at hlast
        rw [henv] at hlast
        injection hlast with hsc hst hbody
        subst hsc; subst hst; subst hbody
        rfl
      | succ r2 =>
        have harg : ∀ j, j < r2 + 1 → (env (idx + 1 + j)).isBadStatusResponse = true := by
          intro j hj
          have := h (j + 1) (by omega)
          rwa [(by omega : idx + (j + 1) = idx + 1 + j)] at this
        have hlast2 : env (idx + 1 + (r2 + 1) - 1) = .response sc st body := by
          rwa [(by omega : idx + (r2 + 1 + 1) - 1 = idx + 1 + (r2 + 1) - 1)] at hlast
        have hcnt : count + (r2 + 1 + 1) = count + 1 + (r2 + 1) := by omega
        rw [hcnt, ih (idx + 1) none (some ⟨sc0, st0, body0⟩) (count + 1) harg sc st body
          (by omega) hlast2]

/-- Request counting in `GetProductsFromQuery` reduces to the loop counter
once credentials pass. -/
theorem getProductsFromQuery_count (its : ITScopeCommunicator)
    (env : Nat → Attempt ProductsContainer) (query : String)
    (h : authenticateRequest its = .ok ()) :
    (GetProductsFromQuery its env query).2 = (doLoop env 3 0 none none 0).2 := by
  simp only [GetProductsFromQuery, h]
  rcases hdl : doLoop env 3 0 none none 0 with ⟨lr, c⟩
  cases lr with
  | limiterAbort e => simp
  | finished err resp =>
    cases err with
    | some e => simp
    | none =>
      cases resp with
      | none => simp
      | some r =>
        rcases r with ⟨sc, st, body⟩
        by_cases h404 : sc = 404
        · simp [h404]
        · by_cases h200 : sc = 200
          · cases body <;> simp [h404, h200]
          · simp [h404, h200]

/-! ### Claims about the query executor -/

/-- C3: when every one of the 3 attempts observes an HTTP status other
than 200 and 404 (so no transport error, in particular not on the last
attempt), `GetProductsFromQuery` returns an `UnexpectedStatusCode` error
carrying the status line and status code observed on the final attempt,
after exactly 3 requests. -/
theorem c3_exhausted_unexpected_status (its : ITScopeCommunicator)
    (env : Nat → Attempt ProductsContainer) (query : String)
    (hu : its.username ≠ "") (hp : its.password ≠ "")
    (hbad : ∀ j, j < 3 → (env j).isBadStatusResponse = true)
    (sc : Nat) (st : String) (body : Except GoError ProductsContainer)
    (hlast : env 2 = .response sc st body) :
    GetProductsFromQuery its env query = (.error (.unexpectedStatusCode st sc), 3) := by
  have hauth : authenticateRequest its = .ok () := by
    unfold authenticateRequest
    rw [if_neg]
    push_neg
    exact ⟨hu, hp⟩
  have hloop := doLoop_exhaust_badstatus env 3 0 none none 0
    (by intro j hj; rw [Nat.zero_add]; exact hbad j hj) sc st body (by omega)
    (by rw [(by omega : 0 + 3 - 1 = 2)]; exact hlast)
  have h2 := hbad 2 (by omega)
  rw [hlast] at h2
  simp only [Attempt.isBadStatusResponse, Bool.and_eq_true, bne_iff_ne, ne_eq] at h2
  simp [GetProductsFromQuery, hauth, hloop, h2.1, h2.2]

theorem c3_exhausted_unexpected_status_witness :
    GetProductsFromQuery (New "acme" "user" "pw" "DE")
      (fun _ => .response 500 "500 Internal Server Error" (.ok {})) "q" =
      (.error (.unexpectedStatusCode "500 Internal Server Error" 500), 3) :=
  c3_exhausted_unexpected_status (New "acme" "user" "pw" "DE")
    (fun _ => .response 500 "500 Internal Server Error" (.ok {})) "q"
    (by decide) (by decide) (by decide) 500 "500 Internal Server Error" (.ok {}) rfl

/-- C4 counterexample: an invocation with an empty username fails the
credential check before any network I/O and issues zero requests, so "at
least one network request per invocation" does not hold of every
invocation. -/
theorem c4_counterexample_no_request :
    (GetProductsFromQuery (New "acme" "" "pw" "DE")
      (fun _ => .response 200 "200 OK" (.ok {})) "q").2 = 0 := rfl

/-- C4 (amended): every invocation issues at most three requests; an
invocation whose credentials are set and whose first limiter wait does
not fail issues at least one; and whenever the first k attempts
(1 ≤ k ≤ 2) fail transiently and attempt k returns HTTP 200 with a
well-formed body, the call returns the decoded container and no error,
having issued k + 1 ≤ 3 requests. -/
theorem c4_attempt_budget (its : ITScopeCommunicator)
    (env : Nat → Attempt ProductsContainer) (query : String) :
    (GetProductsFromQuery its env query).2 ≤ 3 ∧
    (its.username ≠ "" → its.password ≠ "" → (env 0).isLimiterWaitFailure = false →
      1 ≤ (GetProductsFromQuery its env query).2) ∧
    (∀ k, 1 ≤ k → k ≤ 2 → its.username ≠ "" → its.password ≠ "" →
      (∀ j, j < k → (env j).isTransientFailure = true) →
      ∀ st (pc : ProductsContainer), env k = .response 200 st (.ok pc) →
      GetProductsFromQuery its env query = (.ok pc, k + 1)) := by
  refine ⟨?_, ?_, ?_⟩
  · by_cases h : authenticateRequest its = .ok ()
    · rw [getProductsFromQuery_count its env query h]
      have := doLoop_count_le env 3 0 none none 0
      omega
    · cases ha : authenticateRequest its with
      | error e => simp [GetProductsFromQuery, ha]
      | ok u => cases u; exact absurd ha h
  · intro hu hp h0
    have hauth : authenticateRequest its = .ok () := by
      unfold authenticateRequest
      rw [if_neg]
      push_neg
      exact ⟨hu, hp⟩
    rw [getProductsFromQuery_count its env query hauth]
    have hpos := doLoop_count_pos env 2 0 none none 0 h0
    have h23 : doLoop env (2 + 1) 0 none none 0 = doLoop env 3 0 none none 0 := rfl
    rw [h23] at hpos
    omega
  · intro k hk1 hk2 hu hp htrans st pc henvk
    have hauth : authenticateRequest its = .ok () := by
      unfold authenticateRequest
      rw [if_neg]
      push_neg
      exact ⟨hu, hp⟩
    have hloop := doLoop_success env k 3 0 none none 0 (by omega)
      (by intro j hj; rw [Nat.zero_add]; exact htrans j hj) st (.ok pc)
      (by rw [Nat.zero_add]; exact henvk)
    rw [(by omega : 0 + k + 1 = k + 1)] at hloop
    simp [GetProductsFromQuery, hauth, hloop]

theorem c4_attempt_budget_witness :
    GetProductsFromQuery (New "acme" "user" "pw" "DE")
      (fun i => if i = 0 then .transportError (.errorf "connection reset")
        else .response 200 "200 OK" (.ok {})) "q" = (.ok {}, 2) :=
  (c4_attempt_budget (New "acme" "user" "pw" "DE")
    (fun i => if i = 0 then .transportError (.errorf "connection reset")
      else .response 200 "200 OK" (.ok {})) "q").2.2
    1 (by decide) (by decide) (by decide) (by decide) (by decide) "200 OK" {} rfl

/-- C5: an HTTP 404 on the first attempt makes `GetProductsFromQuery`
return the empty product container with no error after exactly one
request (no retry), and the same server behaviour makes the single-SKU
lookup `GetProductData` return a nil product and nil error. -/
theorem c5_notfound_empty_result (its : ITScopeCommunicator)
    (env : Nat → Attempt ProductsContainer) (query productSKU st : String)
    (body : Except GoError ProductsContainer)
    (hu : its.username ≠ "") (hp : its.password ≠ "")
    (h0 : env 0 = .response 404 st body) :
    GetProductsFromQuery its env query = (.ok {}, 1) ∧
    GetProductData its env productSKU = (.ok none, 1) := by
  have hauth : authenticateRequest its = .ok () := by
    unfold authenticateRequest
    rw [if_neg]
    push_neg
    exact ⟨hu, hp⟩
  have hloop : doLoop env 3 0 none none 0 = (.finished none (some ⟨404, st, body⟩), 1) := by
    simp only [doLoop, h0]
    rw [if_neg (by simp)]
  have hq : ∀ q, GetProductsFromQuery its env q = (.ok {}, 1) := by
    intro q
    simp [GetProductsFromQuery, hauth, hloop]
  refine ⟨hq query, ?_⟩
  simp [GetProductData, hq ("distpid=" ++ productSKU)]

theorem c5_notfound_empty_result_witness :
    GetProductsFromQuery (New "acme" "user" "pw" "DE")
      (fun _ => .response 404 "404 Not Found" (.ok {})) "q" = (.ok {}, 1) ∧
    GetProductData (New "acme" "user" "pw" "DE")
      (fun _ => .response 404 "404 Not Found" (.ok {})) "sku" = (.ok none, 1) :=
  c5_notfound_empty_result (New "acme" "user" "pw" "DE")
    (fun _ => .response 404 "404 Not Found" (.ok {})) "q" "sku" "404 Not Found"
    (.ok {}) (by decide) (by decide) rfl

/-- C7: with an empty username or password, both `GetProductsFromQuery`
and `GetAllProductTypes` fail with the missing-credentials error, wrapped
with the operation context, and issue zero network requests. -/
theorem c7_missing_credentials (its : ITScopeCommunicator)
    (envP : Nat → Attempt ProductsContainer) (envT : Nat → Attempt ProductTypesContainer)
    (query : String) (h : its.username = "" ∨ its.password = "") :
    GetProductsFromQuery its envP query =
      (.error (.wrapped "GetProductsFromQuery2" (.errorf "no username or password set")), 0) ∧
    GetAllProductTypes its envT =
      (.error (.wrapped "could not retrieve product types"
        (.errorf "no username or password set")), 0) := by
  have ha : authenticateRequest its = .error (.errorf "no username or password set") := by
    unfold authenticateRequest
    rw [if_pos h]
  exact ⟨by simp [GetProductsFromQuery, ha], by simp [GetAllProductTypes, ha]⟩

theorem c7_missing_credentials_witness :
    GetProductsFromQuery (New "acme" "" "pw" "DE")
      (fun _ => .transportError (.errorf "unreachable")) "q" =
      (.error (.wrapped "GetProductsFromQuery2" (.errorf "no username or password set")), 0) ∧
    GetAllProductTypes (New "acme" "" "pw" "DE")
      (fun _ => .transportError (.errorf "unreachable")) =
      (.error (.wrapped "could not retrieve product types"
        (.errorf "no username or password set")), 0) :=
  c7_missing_credentials (New "acme" "" "pw" "DE")
    (fun _ => .transportError (.errorf "unreachable"))
    (fun _ => .transportError (.errorf "unreachable")) "q" (Or.inl rfl)

/-- C8: the empty identifier list makes the aggregator return an empty
result and a nil error, with zero network requests issued. -/
theorem c8_empty_list_short_circuit (its : ITScopeCommunicator)
    (env : Nat → Nat → Attempt ProductsContainer) :
    GetProductAccessoriesFromList its env [] = (.ok [], 0) := rfl

/-- C10: whenever the underlying query of `GetProductData` succeeds with a
container holding no products (the 404 case included), `GetProductData`
returns a nil product pointer and a nil error. -/
theorem c10_nil_product_nil_error (its : ITScopeCommunicator)
    (env : Nat → Attempt ProductsContainer) (productSKU : String)
    (pc : ProductsContainer) (c : Nat)
    (h : GetProductsFromQuery its env ("distpid=" ++ productSKU) = (.ok pc, c))
    (hempty : pc.Product = []) :
    GetProductData its env productSKU = (.ok none, c) := by
  simp [GetProductData, h, hempty]

theorem c10_nil_product_nil_error_witness :
    GetProductData (New "acme" "user" "pw" "DE")
      (fun _ => .response 404 "404 Not Found" (.ok {})) "sku2" = (.ok none, 1) :=
  c10_nil_product_nil_error (New "acme" "user" "pw" "DE")
    (fun _ => .response 404 "404 Not Found" (.ok {})) "sku2" {} 1 (by rfl) rfl

/-! ### Aggregator lemmas -/

theorem accListLoop_all_ok (its : ITScopeCommunicator)
    (env : Nat → Nat → Attempt ProductsContainer) (pc : Nat → ProductsContainer) :
    ∀ (qs : List String) (g : Nat) (acc : List Product) (count : Nat),
      (∀ j, j < qs.length →
        (GetProductsFromQuery its (env (g + j)) (qs.getD j "")).1 = .ok (pc (g + j))) →
      (accListLoop its env qs g acc count).1 =
        .ok (acc ++ ((List.range qs.length).map (fun j => (pc (g + j)).Product)).flatten) := by
  intro qs
  induction qs with
  | nil => intro g acc count _; simp [accListLoop]
  | cons q rest ih =>
    intro g acc count h
    have h0 := h 0 (by simp)
    rw [Nat.add_zero] at h0
    simp only [List.getD_cons_zero] at h0
    rcases hq : GetProductsFromQuery its (env g) q with ⟨res, c⟩
    rw [hq] at h0
    simp only at h0
    subst h0
    simp only [accListLoop, hq]
    have harg : ∀ j, j < rest.length →
        (GetProductsFromQuery its (env (g + 1 + j)) (rest.getD j "")).1 = .ok (pc (g + 1 + j)) := by
      intro j hj
      have hjj := h (j + 1) (by simp; omega)
      simp only [List.getD_cons_succ] at hjj
      rwa [(by omega : g + (j + 1) = g + 1 + j)] at hjj
    rw [ih (g + 1) (acc ++ (pc g).Product) (count + c) harg]
    have hshift : (List.range rest.length).map (fun j => (pc (g + 1 + j)).Product) =
        (List.range rest.length).map (fun j => (pc (g + (j + 1))).Product) := by
      apply List.map_congr_left
      intro j _
      have : g + 1 + j = g + (j + 1) := by omega
      rw [this]
    rw [hshift]
    simp only [List.length_cons, List.range_succ_eq_map, List.map_cons, List.map_map,
      List.flatten_cons, Nat.add_zero, List.append_assoc]
    rfl

theorem accListLoop_first_error (its : ITScopeCommunicator)
    (env : Nat → Nat → Attempt ProductsContainer) (pc : Nat → ProductsContainer) (e : GoError) :
    ∀ (qs : List String) (g : Nat) (acc : List Product) (count : Nat) (j0 : Nat),
      j0 < qs.length →
      (∀ j, j < j0 →
        (GetProductsFromQuery its (env (g + j)) (qs.getD j "")).1 = .ok (pc (g + j))) →
      (GetProductsFromQuery its (env (g + j0)) (qs.getD j0 "")).1 = .error e →
      (accListLoop its env qs g acc count).1 = .error e := by
  intro qs
  induction qs with
  | nil => intro g acc count j0 hj0; simp at hj0
  | cons q rest ih =>
    intro g acc count j0 hj0 hok herr
    cases j0 with
    | zero =>
      rw [Nat.add_zero] at herr
      simp only [List.getD_cons_zero] at herr
      rcases hq : GetProductsFromQuery its (env g) q with ⟨res, c⟩
      rw [hq] at herr
      simp only at herr
      subst herr
      simp [accListLoop, hq]
    | succ j0 =>
      have h0 := hok 0 (by omega)
      rw [Nat.add_zero] at h0
      simp only [List.getD_cons_zero] at h0
      rcases hq : GetProductsFromQuery its (env g) q with ⟨res, c⟩
      rw [hq] at h0
      simp only at h0
      subst h0
      simp only [accListLoop, hq]
      apply ih (g + 1) (acc ++ (pc g).Product) (count + c) j0 (by simp at hj0; omega)
      · intro j hj
        have hjj := hok (j + 1) (by omega)
        simp only [List.getD_cons_succ] at hjj
        rwa [(by omega : g + (j + 1) = g + 1 + j)] at hjj
      · simp only [List.getD_cons_succ] at herr
        rwa [(by omega : g + (j0 + 1) = g + 1 + j0)] at herr

/-- C2: the fan-out aggregator (sequential variant of the retrying
client).  If the group at index g0 is the first to fail, the aggregate
result is exactly that error and carries no product records (the results
of the groups before g0 are discarded).  If every group succeeds, the
aggregate is the concatenation of the product records of all groups, in group
order. -/
theorem c2_aggregator_first_error (its : ITScopeCommunicator)
    (env : Nat → Nat → Attempt ProductsContainer) (products : List String)
    (pc : Nat → ProductsContainer) :
    (∀ g0 e, g0 < (createQueryStrings products 50).length →
      (∀ g, g < g0 → (GetProductsFromQuery its (env g)
        ((createQueryStrings products 50).getD g "")).1 = .ok (pc g)) →
      (GetProductsFromQuery its (env g0)
        ((createQueryStrings products 50).getD g0 "")).1 = .error e →
      (GetProductAccessoriesFromList its env products).1 = .error e) ∧
    ((∀ g, g < (createQueryStrings products 50).length →
      (GetProductsFromQuery its (env g)
        ((createQueryStrings products 50).getD g "")).1 = .ok (pc g)) →
      (GetProductAccessoriesFromList its env products).1 =
        .ok (((List.range (createQueryStrings products 50).length).map
          (fun g => (pc g).Product)).flatten)) := by
  constructor
  · intro g0 e hg0 hok herr
    by_cases hlen : products.length = 0
    · exfalso
      have hnil : products = [] := List.length_eq_zero.mp hlen
      subst hnil
      simp [createQueryStrings, createQueryChunks, goPages, chunksLoop] at hg0
    · simp only [GetProductAccessoriesFromList, if_neg hlen]
      exact accListLoop_first_error its env pc e (createQueryStrings products 50) 0 [] 0 g0 hg0
        (by intro j hj; rw [Nat.zero_add]; exact hok j hj)
        (by rw [Nat.zero_add]; exact herr)
  · intro hok
    by_cases hlen : products.length = 0
    · have hnil : products = [] := List.length_eq_zero.mp hlen
      subst hnil
      simp [GetProductAccessoriesFromList, createQueryStrings, createQueryChunks, goPages,
        chunksLoop]
    · simp only [GetProductAccessoriesFromList, if_neg hlen]
      rw [accListLoop_all_ok its env pc (createQueryStrings products 50) 0 [] 0
        (by intro j hj; rw [Nat.zero_add]; exact hok j hj)]
      simp [Nat.zero_add]

theorem c2_aggregator_first_error_witness :
    (GetProductAccessoriesFromList (New "acme" "user" "pw" "DE")
      (fun _ _ => .response 200 "200 OK" (.ok ⟨[⟨"X", "t1", []⟩]⟩)) ["a"]).1 =
      .ok [⟨"X", "t1", []⟩] :=
  (c2_aggregator_first_error (New "acme" "user" "pw" "DE")
    (fun _ _ => .response 200 "200 OK" (.ok ⟨[⟨"X", "t1", []⟩]⟩)) ["a"]
    (fun _ => ⟨[⟨"X", "t1", []⟩]⟩)).2 (by intro g hg; rfl)

/-! ### Filter lemmas -/

theorem mapStore_inv (products : List Product) (typeList : List ProductType)
    (m : List (String × Product)) (v : Product)
    (hm : StoreInv products typeList m) (hv : v ∈ products)
    (ht : ∃ t ∈ typeList, v.ProductTypeID = t.ID ∧ v.ProductTypeID ≠ "" ∧
      t.ProductTypeGroup.ID ≠ "") :
    StoreInv products typeList (mapStore m v.Puid v) := by
  obtain ⟨hpw, hmem⟩ := hm
  unfold mapStore
  split
  · constructor
    · rw [List.pairwise_map]
      apply hpw.imp
      intro a b hne
      by_cases ha : a.1 = v.Puid
      · by_cases hb : b.1 = v.Puid
        · exact absurd (ha.trans hb.symm) hne
        · simp only [if_pos ha, if_neg hb]
          exact fun h => hb h.symm
      · by_cases hb : b.1 = v.Puid
        · simp only [if_neg ha, if_pos hb]
          exact ha
        · simp only [if_neg ha, if_neg hb]
          exact hne
    · intro q hq
      obtain ⟨p, hp, rfl⟩ := List.mem_map.mp hq
      by_cases hpk : p.1 = v.Puid
      · simp only [if_pos hpk]
        exact ⟨trivial, hv, ht⟩
      · simp only [if_neg hpk]
        exact hmem p hp
  · next hany =>
    have hfresh : ∀ p ∈ m, p.1 ≠ v.Puid := by
      intro p hp
      simp only [List.any_eq_true, decide_eq_true_eq] at hany
      exact fun hpk => hany ⟨p, hp, hpk⟩
    constructor
    · rw [List.pairwise_append]
      refine ⟨hpw, by simp, ?_⟩
      intro a ha b hb
      simp only [List.mem_singleton] at hb
      subst hb
      exact hfresh a ha
    · intro q hq
      rcases List.mem_append.mp hq with h | h
      · exact hmem q h
      · simp only [List.mem_singleton] at h
        subst h
        exact ⟨rfl, hv, ht⟩

theorem innerFold_inv (products0 : List Product) (typeList : List ProductType)
    (productType : ProductType) (htype : productType ∈ typeList) :
    ∀ (l : List Product), (∀ p ∈ l, p ∈ products0) →
      ∀ m, StoreInv products0 typeList m →
      StoreInv products0 typeList (l.foldl (fun m product =>
        if product.ProductTypeID = productType.ID ∧ product.ProductTypeID ≠ "" ∧
            productType.ProductTypeGroup.ID ≠ "" then
          mapStore m product.Puid product
        else m) m) := by
  intro l
  induction l with
  | nil => intro _ m hm; exact hm
  | cons p rest ih =>
    intro hsub m hm
    simp only [List.foldl_cons]
    apply ih (fun q hq => hsub q (List.mem_cons_of_mem p hq))
    by_cases hc : p.ProductTypeID = productType.ID ∧ p.ProductTypeID ≠ "" ∧
        productType.ProductTypeGroup.ID ≠ ""
    · rw [if_pos hc]
      exact mapStore_inv products0 typeList m p hm (hsub p (List.mem_cons_self p rest))
        ⟨productType, htype, hc.1, hc.2.1, hc.2.2⟩
    · rw [if_neg hc]
      exact hm

theorem outerFold_inv (products0 : List Product) (typeList0 : List ProductType) :
    ∀ (ts : List ProductType), (∀ t ∈ ts, t ∈ typeList0) →
      ∀ m, StoreInv products0 typeList0 m →
      StoreInv products0 typeList0 (ts.foldl (fun m productType =>
        products0.foldl (fun m product =>
          if product.ProductTypeID = productType.ID ∧ product.ProductTypeID ≠ "" ∧
              productType.ProductTypeGroup.ID ≠ "" then
            mapStore m product.Puid product
          else m) m) m) := by
  intro ts
  induction ts with
  | nil => intro _ m hm; exact hm
  | cons t rest ih =>
    intro hsub m hm
    simp only [List.foldl_cons]
    apply ih (fun u hu => hsub u (List.mem_cons_of_mem t hu))
    exact innerFold_inv products0 typeList0 t (hsub t (List.mem_cons_self t rest))
      products0 (fun p hp => hp) m hm

theorem filterProductsByTypeList_spec (products : List Product) (typeList : List ProductType) :
    (FilterProductsByTypeList products typeList).Pairwise (fun a b => a.Puid ≠ b.Puid) ∧
    ∀ p ∈ FilterProductsByTypeList products typeList,
      p ∈ products ∧ ∃ t ∈ typeList, p.ProductTypeID = t.ID ∧ p.ProductTypeID ≠ "" ∧
        t.ProductTypeGroup.ID ≠ "" := by
  obtain ⟨hpw, hmem⟩ := outerFold_inv products typeList typeList (fun t ht => ht) []
    ⟨List.Pairwise.nil, by simp⟩
  unfold FilterProductsByTypeList
  constructor
  · rw [List.pairwise_map]
    exact List.Pairwise.imp_of_mem
      (fun ha hb hne => by
        rw [← (hmem _ ha).1, ← (hmem _ hb).1]
        exact hne) hpw
  · intro p hp
    obtain ⟨q, hq, rfl⟩ := List.mem_map.mp hp
    exact ⟨(hmem q hq).2.1, (hmem q hq).2.2⟩

/-- C9: a successful `GetServiceTypeAccessoriesOfProduct` result holds
each `Puid` at most once (the map keyed by `Puid` keeps one entry per
identifier, last store winning), holds only fetched accessories whose
type id matches a type of group "SSP" in the fetched catalog, and is
empty whenever no fetched accessory matches any "SSP"-group type. -/
theorem c9_service_type_accessories (its : ITScopeCommunicator)
    (envT : Nat → Attempt ProductTypesContainer)
    (envA : Nat → Nat → Attempt ProductsContainer) (product : Product)
    (pts : List ProductType) (accs : List Product) (res : List Product)
    (hT : (GetAllProductTypes its envT).1 = .ok pts)
    (hA : (GetProductAccessories its envA product).1 = .ok accs)
    (hres : (GetServiceTypeAccessoriesOfProduct its envT envA product).1 = .ok res) :
    res.Pairwise (fun a b => a.Puid ≠ b.Puid) ∧
    (∀ p ∈ res, p ∈ accs ∧ ∃ t ∈ pts, t.ProductTypeGroup.ID = "SSP" ∧
      p.ProductTypeID = t.ID ∧ p.ProductTypeID ≠ "") ∧
    ((∀ p ∈ accs, ∀ t ∈ pts, t.ProductTypeGroup.ID = "SSP" → p.ProductTypeID ≠ t.ID) →
      res = []) := by
  rcases h1 : GetAllProductTypes its envT with ⟨r1, c1⟩
  rw [h1] at hT
  simp only at hT
  subst hT
  rcases h2 : GetProductAccessories its envA product with ⟨r2, c2⟩
  rw [h2] at hA
  simp only at hA
  subst hA
  simp only [GetServiceTypeAccessoriesOfProduct, h1, h2, Except.ok.injEq] at hres
  subst hres
  obtain ⟨hpw, hmem⟩ := filterProductsByTypeList_spec accs (FilterProductTypesByGroupId "SSP" pts)
  refine ⟨hpw, ?_, ?_⟩
  · intro p hp
    obtain ⟨hin, t, htf, heq, hne, _⟩ := hmem p hp
    have hmf := List.mem_filter.mp htf
    exact ⟨hin, t, hmf.1, by simpa using hmf.2, heq, hne⟩
  · intro hnone
    cases hF : FilterProductsByTypeList accs (FilterProductTypesByGroupId "SSP" pts) with
    | nil => rfl
    | cons p rest =>
      exfalso
      have hp : p ∈ FilterProductsByTypeList accs (FilterProductTypesByGroupId "SSP" pts) := by
        rw [hF]
        exact List.mem_cons_self p rest
      obtain ⟨hin, t, htf, heq, hne, _⟩ := hmem p hp
      have hmf := List.mem_filter.mp htf
      exact hnone p hin t hmf.1 (by simpa using hmf.2) heq

theorem c9_service_type_accessories_witness :
    ([] : List Product).Pairwise (fun a b => a.Puid ≠ b.Puid) ∧
    (∀ p ∈ ([] : List Product), p ∈ ([] : List Product) ∧
      ∃ t ∈ [({ ID := "t1", ProductTypeGroup := { ID := "SSP" } } : ProductType)],
        t.ProductTypeGroup.ID = "SSP" ∧ p.ProductTypeID = t.ID ∧ p.ProductTypeID ≠ "") ∧
    ((∀ p ∈ ([] : List Product),
      ∀ t ∈ [({ ID := "t1", ProductTypeGroup := { ID := "SSP" } } : ProductType)],
        t.ProductTypeGroup.ID = "SSP" → p.ProductTypeID ≠ t.ID) →
      ([] : List Product) = []) :=
  c9_service_type_accessories (New "acme" "user" "pw" "DE")
    (fun _ => .response 200 "200 OK"
      (.ok ⟨[{ ID := "t1", ProductTypeGroup := { ID := "SSP" } }]⟩))
    (fun _ _ => .transportError (.errorf "unused"))
    { Puid := "P", ProductTypeID := "", Accessories := [] }
    [{ ID := "t1", ProductTypeGroup := { ID := "SSP" } }] [] [] rfl rfl rfl

end Itscope
